import Mathlib

/-!
Verification of the aligned-memory-allocator adapter implemented in
`common/AllocationCallbacks.cpp` (class `AllocationCallbacksBase`, methods
`doAllocation`, `doReallocation`, `doFree`), together with the older inline
variant `DebugAllocator::fnReallocation` in `01-device/main.cpp`.

Modelling conventions:
* `uintptr_t` / `size_t` values are natural numbers; 64-bit wrap-around is
  made explicit with `% ptrSpace` exactly where the C code can wrap.
* The underlying unaligned allocator (`malloc` / `realloc` / `free`) is
  external; each operation takes the response of the single underlying
  allocation call it can make as an explicit `Option Nat` argument
  (`none` = exhaustion), records the calls it makes in a `List UCall`
  trace, and applies the underlying allocator's documented effect on
  memory (`mallocEffect`, `reallocEffect`, `freeEffect`).
* Memory is modelled at the granularity the program accesses it: the
  program reads and writes `BufferHeader` records only through whole-struct
  `memcpy`, and caller-visible content only bytewise, so `Mem` keeps a map
  of header slots alongside a byte map and the underlying allocator's
  block registry.  `realloc` relocates the content bytes of the old block;
  the header slot at the new location is rewritten explicitly by the code
  immediately afterwards, matching the source, and no code path reads a
  header between the `realloc` and that rewrite.
* `ASSERT` is a fatal precondition check; asserted conditions appear as
  theorem hypotheses or proved conclusions, never as state changes.
-/

/-- Size in bytes of `struct BufferHeader { void *outer; size_t size; }`
on an LP64 platform: 8 + 8. -/
def sizeofBufferHeader : Nat := 16

/-- Size of the 64-bit address space: `uintptr_t` arithmetic is mod `ptrSpace`. -/
def ptrSpace : Nat := 2 ^ 64

/-- The static fast-path bound `minReallocAlignment = alignof(double)` (8 on the
modelled platform): `doReallocation` uses `realloc` in place only when the
requested alignment does not exceed this. -/
def minReallocAlignment : Nat := 8

/-- The inner-address computation of `doAllocation`:
`((uintptr_t)outer + sizeof(BufferHeader) + alignment - 1) & ~(alignment - 1)`.
In 64-bit arithmetic `~(alignment - 1)` is `2^64 - alignment`, and the sum is
reduced mod `2^64` before masking, exactly as the unsigned C expression wraps. -/
def innerAddr (outer alignment : Nat) : Nat :=
  ((outer + sizeofBufferHeader + alignment - 1) % ptrSpace) &&& (ptrSpace - alignment)

/-- Mathematical form of rounding up to a multiple of `a`; the bridge lemma
`innerAddr_eq` shows the masked computation of `innerAddr` equals it for
power-of-two alignments when the sum does not wrap. -/
def roundUp (x a : Nat) : Nat := (x + a - 1) / a * a

theorem land_two_pow_mask (k x : Nat) (hk : k ≤ 64) (hx : x < 2 ^ 64) :
    x &&& (2 ^ 64 - 2 ^ k) = x / 2 ^ k * 2 ^ k := by
  have hmask : 2 ^ 64 - 2 ^ k = (2 ^ (64 - k) - 1) <<< k := by
    rw [Nat.shiftLeft_eq, Nat.sub_mul, one_mul, ← Nat.pow_add]
    have h : 64 - k + k = 64 := by omega
    rw [h]
  have hrhs : x / 2 ^ k * 2 ^ k = (x >>> k) <<< k := by
    rw [Nat.shiftLeft_eq, Nat.shiftRight_eq_div_pow]
  rw [hmask, hrhs]
  apply Nat.eq_of_testBit_eq
  intro i
  rw [Nat.testBit_land, Nat.testBit_shiftLeft, Nat.testBit_shiftLeft,
    Nat.testBit_two_pow_sub_one, Nat.testBit_shiftRight]
  by_cases hik : k ≤ i
  · by_cases hi64 : i < 64
    · have h1 : i - k < 64 - k := by omega
      have h2 : k + (i - k) = i := by omega
      simp [ge_iff_le, hik, h1, h2]
    · have h1 : ¬(i - k < 64 - k) := by omega
      have h2 : x.testBit i = false :=
        Nat.testBit_lt_two_pow
          (lt_of_lt_of_le hx (Nat.pow_le_pow_right (by norm_num) (by omega)))
      have h3 : k + (i - k) = i := by omega
      simp [ge_iff_le, hik, h1, h2, h3]
  · simp [ge_iff_le, hik]

theorem le_roundUp (x a : Nat) (ha : 0 < a) : x ≤ roundUp x a := by
  unfold roundUp
  have h1 : a * ((x + a - 1) / a) + (x + a - 1) % a = x + a - 1 :=
    Nat.div_add_mod _ _
  have h2 : (x + a - 1) % a < a := Nat.mod_lt _ ha
  rw [Nat.mul_comm]
  set t := a * ((x + a - 1) / a) with ht
  omega

theorem roundUp_le (x a : Nat) : roundUp x a ≤ x + a - 1 :=
  Nat.div_mul_le_self _ _

theorem roundUp_mod (x a : Nat) : roundUp x a % a = 0 := Nat.mul_mod_left _ _

theorem roundUp_min (x a y : Nat) (ha : 0 < a) (hy : a ∣ y) (hxy : x ≤ y) :
    roundUp x a ≤ y := by
  obtain ⟨c, rfl⟩ := hy
  unfold roundUp
  have h1 : x + a - 1 ≤ a - 1 + a * c := by
    set t := a * c with ht
    omega
  have h2 : (x + a - 1) / a ≤ (a - 1 + a * c) / a := Nat.div_le_div_right h1
  have h3 : (a - 1 + a * c) / a = (a - 1) / a + c := Nat.add_mul_div_left _ _ ha
  have h4 : (a - 1) / a = 0 := Nat.div_eq_of_lt (by omega)
  have h5 : (x + a - 1) / a ≤ c := by omega
  calc (x + a - 1) / a * a ≤ c * a := Nat.mul_le_mul_right a h5
    _ = a * c := Nat.mul_comm _ _

theorem roundUp_eq_self (x a : Nat) (ha : 0 < a) (hx : a ∣ x) :
    roundUp x a = x :=
  Nat.le_antisymm (roundUp_min x a x ha hx (Nat.le_refl x)) (le_roundUp x a ha)

theorem roundUp_shift (s a outer : Nat) (ha : 0 < a) (hd : a ∣ outer) :
    roundUp (outer + s) a = outer + roundUp s a := by
  obtain ⟨c, rfl⟩ := hd
  unfold roundUp
  have h1 : a * c + s + a - 1 = s + a - 1 + a * c := by
    set t := a * c with ht
    omega
  rw [h1, Nat.add_mul_div_left _ _ ha, Nat.add_mul]
  have h2 : c * a = a * c := Nat.mul_comm _ _
  set u := (s + a - 1) / a * a with hu
  set t := a * c with ht
  omega

theorem two_pow_le_sixtyfour {k : Nat} (h : (2 : Nat) ^ k ≤ 2 ^ 64) : k ≤ 64 := by
  by_contra hk
  have : (2 : Nat) ^ 64 < 2 ^ k :=
    Nat.pow_lt_pow_right (by norm_num) (by omega)
  omega

theorem innerAddr_eq (outer k : Nat)
    (hov : outer + sizeofBufferHeader + 2 ^ k - 1 < ptrSpace) :
    innerAddr outer (2 ^ k) = roundUp (outer + sizeofBufferHeader) (2 ^ k) := by
  have hple : (2 : Nat) ^ k ≤ 2 ^ 64 := by
    have h0 : (0 : Nat) < 2 ^ k := Nat.pos_pow_of_pos _ (by norm_num)
    unfold ptrSpace at hov
    unfold sizeofBufferHeader at hov
    omega
  have hk : k ≤ 64 := two_pow_le_sixtyfour hple
  unfold innerAddr roundUp
  rw [Nat.mod_eq_of_lt hov]
  exact land_two_pow_mask k _ hk hov

/-- The bookkeeping record `struct BufferHeader { void *outer; size_t size; }`
stored immediately before each inner pointer. -/
structure BufferHeader where
  outer : Nat
  size : Nat
deriving DecidableEq, Repr

/-- A call made to the underlying unaligned allocator, with the byte count
requested (for `malloc`/`realloc`) or the outer address released (`free`). -/
inductive UCall where
  | malloc (bytes : Nat)
  | realloc (oldOuter bytes : Nat)
  | free (outer : Nat)
deriving DecidableEq, Repr

/-- Process memory plus the underlying allocator's block registry.
`headers a` is the `BufferHeader` whose 16 bytes start at address `a`, when
those bytes hold one; `bytes a` is the content byte at address `a`;
`blocks outer` is the length of the live underlying block starting at
`outer`, when one is live there. -/
structure Mem where
  headers : Nat → Option BufferHeader
  bytes : Nat → Nat
  blocks : Nat → Option Nat

/-- Store a `BufferHeader` at address `addr`
(the `memcpy((void *)(inner - sizeof(BufferHeader)), &header, ...)` writes). -/
def writeHeader (m : Mem) (addr : Nat) (h : BufferHeader) : Mem :=
  { m with headers := fun a => if a = addr then some h else m.headers a }

/-- Load the `BufferHeader` stored at address `addr`
(the `memcpy(&header, (void *)(inner - sizeof(BufferHeader)), ...)` reads).
Reading an address that holds no header is undefined behaviour in the C
program; the model returns a junk header there. -/
def readHeader (m : Mem) (addr : Nat) : BufferHeader :=
  (m.headers addr).getD { outer := 0, size := 0 }

/-- Bytewise `memcpy(dst, src, len)` over the content bytes. -/
def copyBytes (m : Mem) (dst src len : Nat) : Mem :=
  { m with
    bytes := fun a =>
      if dst ≤ a ∧ a < dst + len then m.bytes (src + (a - dst)) else m.bytes a }

/-- Contract of a successful `malloc(n)` that returned `outer`: a block of
`n` bytes at `outer` is now live. -/
def mallocEffect (m : Mem) (outer n : Nat) : Mem :=
  { m with blocks := fun a => if a = outer then some n else m.blocks a }

/-- Contract of a successful `realloc(oldOuter, n)` that returned `newOuter`:
the first `min(oldLen, n)` bytes of the old block are preserved at the new
address, the old block is released and a block of `n` bytes at `newOuter`
is live.  (The relocated copy of the old header bytes is not tracked: every
code path rewrites the header at its new location before reading it.) -/
def reallocEffect (m : Mem) (oldOuter n newOuter : Nat) : Mem :=
  let preserved := min ((m.blocks oldOuter).getD 0) n
  { m with
    bytes := fun a =>
      if newOuter ≤ a ∧ a < newOuter + preserved then
        m.bytes (oldOuter + (a - newOuter))
      else m.bytes a,
    blocks := fun a =>
      if a = newOuter then some n
      else if a = oldOuter then none
      else m.blocks a }

/-- Contract of `free(outer)`: the block at `outer` is no longer live. -/
def freeEffect (m : Mem) (outer : Nat) : Mem :=
  { m with blocks := fun a => if a = outer then none else m.blocks a }

/-- Shallow embedding of `AllocationCallbacksBase::doAllocation(size, alignment,
scope)`.  `mallocResult` is the underlying `malloc`'s response to the one
request this call can make (`none` = exhaustion).  Returns the caller-visible
result, the new memory, and the trace of underlying calls.  The `ASSERT` that
`alignment` is a nonzero power of two is a fatal precondition, carried as a
hypothesis by the theorems.  (`DebugAllocator::doAllocation` in
`01-device/main.cpp` has identical logic.) -/
def doAllocation (size alignment : Nat) (mallocResult : Option Nat) (m : Mem) :
    Option Nat × Mem × List UCall :=
  if size = 0 then (none, m, [])
  else
    match mallocResult with
    | none => (none, m, [UCall.malloc (alignment + sizeofBufferHeader + size)])
    | some outer =>
      let m1 := mallocEffect m outer (alignment + sizeofBufferHeader + size)
      let inner := innerAddr outer alignment
      let m2 := writeHeader m1 (inner - sizeofBufferHeader)
        { outer := outer, size := size }
      (some inner, m2, [UCall.malloc (alignment + sizeofBufferHeader + size)])

/-- Shallow embedding of `AllocationCallbacksBase::doFree(pMemory,
originalSize)`: read the header just before `p`, report its `size` through the
out-parameter (first component of the result) and release its `outer`. -/
def doFree (p : Nat) (m : Mem) : Nat × Mem × List UCall :=
  let header := readHeader m (p - sizeofBufferHeader)
  (header.size, freeEffect m header.outer, [UCall.free header.outer])

/-- The `alignment <= minReallocAlignment` arm of `doReallocation`: resize the
outer buffer in place with `realloc` (`uresp` is its response), recompute the
inner address exactly as in `doAllocation` and rewrite the header.  The two
`ASSERT`s of this arm are settled by theorem `C9_fast_path_assertions`;
`inner` is the original pointer they mention. -/
def fastRealloc (inner : Nat) (header : BufferHeader) (size alignment : Nat)
    (uresp : Option Nat) (m : Mem) : Option Nat × Mem × List UCall :=
  match uresp with
  | none =>
    (none, m, [UCall.realloc header.outer (alignment + sizeofBufferHeader + size)])
  | some newOuter =>
    let m1 := reallocEffect m header.outer
      (alignment + sizeofBufferHeader + size) newOuter
    let newInner := innerAddr newOuter alignment
    let m2 := writeHeader m1 (newInner - sizeofBufferHeader)
      { outer := newOuter, size := size }
    (some newInner, m2,
      [UCall.realloc header.outer (alignment + sizeofBufferHeader + size)])

/-- The `else` arm of `doReallocation`: get a totally new aligned buffer with a
fresh `doAllocation` (`uresp` is the underlying `malloc`'s response), copy
`min(size, header.size)` bytes from the old inner buffer, and release the
original outer buffer.  The underlying `realloc` is not called. -/
def slowRealloc (inner : Nat) (header : BufferHeader) (size alignment : Nat)
    (uresp : Option Nat) (m : Mem) : Option Nat × Mem × List UCall :=
  let a := doAllocation size alignment uresp m
  match a.1 with
  | none => (none, a.2.1, a.2.2)
  | some newInner =>
    let m2 := copyBytes a.2.1 newInner inner (min size header.size)
    (some newInner, m2, a.2.2 ++ [UCall.free header.outer])

/-- Shallow embedding of `AllocationCallbacksBase::doReallocation(pOriginal,
size, alignment, scope, originalSize)`.  The second component of the result is
the value stored through the `originalSize` out-parameter (initialised to 0,
then overwritten on the paths that read or free the original allocation).
`uresp` is the response of the single underlying allocation call this
execution can make: `realloc` on the fast path, `malloc` on the other paths. -/
def doReallocation (pOriginal : Option Nat) (size alignment : Nat)
    (uresp : Option Nat) (m : Mem) : Option Nat × Nat × Mem × List UCall :=
  match pOriginal with
  | none =>
    let a := doAllocation size alignment uresp m
    (a.1, 0, a.2.1, a.2.2)
  | some inner =>
    if size = 0 then
      let f := doFree inner m
      (none, f.1, f.2.1, f.2.2)
    else
      let header := readHeader m (inner - sizeofBufferHeader)
      if alignment ≤ minReallocAlignment then
        let r := fastRealloc inner header size alignment uresp m
        (r.1, header.size, r.2.1, r.2.2)
      else
        let r := slowRealloc inner header size alignment uresp m
        (r.1, header.size, r.2.1, r.2.2)

/-- Shallow embedding of `DebugAllocator::fnReallocation` in
`01-device/main.cpp` (the older inline variant; logging elided).  It first
attempts a plain `realloc` (`reallocResp` is its response); if the outer buffer
moved by a multiple of the alignment it rewrites the header in place, and
otherwise it allocates a fresh aligned buffer (`mallocResp` is that `malloc`'s
response), copies from the misaligned relocated buffer, and frees the
relocated buffer.  It reports no original size. -/
def fnReallocation01 (pOriginal : Option Nat) (size alignment : Nat)
    (reallocResp mallocResp : Option Nat) (m : Mem) :
    Option Nat × Mem × List UCall :=
  match pOriginal with
  | none => doAllocation size alignment mallocResp m
  | some inner =>
    if size = 0 then
      let f := doFree inner m
      (none, f.2.1, f.2.2)
    else
      let header := readHeader m (inner - sizeofBufferHeader)
      match reallocResp with
      | none =>
        (none, m,
          [UCall.realloc header.outer (alignment + sizeofBufferHeader + size)])
      | some newOuter =>
        let m1 := reallocEffect m header.outer
          (alignment + sizeofBufferHeader + size) newOuter
        let t0 := [UCall.realloc header.outer
          (alignment + sizeofBufferHeader + size)]
        if ((ptrSpace + newOuter - header.outer) % ptrSpace) &&& (alignment - 1)
            = 0 then
          let newInner := innerAddr newOuter alignment
          let m2 := writeHeader m1 (newInner - sizeofBufferHeader)
            { outer := newOuter, size := size }
          (some newInner, m2, t0)
        else
          let badInner := newOuter + (inner - header.outer)
          let a := doAllocation size alignment mallocResp m1
          match a.1 with
          | none => (none, a.2.1, t0 ++ a.2.2)
          | some newInner2 =>
            let m3 := copyBytes a.2.1 newInner2 badInner (min size header.size)
            (some newInner2, m3, t0 ++ a.2.2 ++ [UCall.free newOuter])

theorem doAllocation_some (size alignment outer : Nat) (m : Mem)
    (hsz : size ≠ 0) :
    doAllocation size alignment (some outer) m =
      (some (innerAddr outer alignment),
       writeHeader (mallocEffect m outer (alignment + sizeofBufferHeader + size))
         (innerAddr outer alignment - sizeofBufferHeader)
         { outer := outer, size := size },
       [UCall.malloc (alignment + sizeofBufferHeader + size)]) := by
  simp [doAllocation, hsz]

theorem doReallocation_reports (p size alignment : Nat) (u : Option Nat)
    (m : Mem) :
    (doReallocation (some p) size alignment u m).2.1 =
      (readHeader m (p - sizeofBufferHeader)).size := by
  by_cases hsz : size = 0
  · subst hsz; rfl
  · by_cases hfa : alignment ≤ minReallocAlignment
    · simp [doReallocation, hsz, hfa]
    · simp [doReallocation, hsz, hfa]

/-- An empty memory: no headers, zero bytes, no live blocks. -/
def memEmpty : Mem :=
  { headers := fun _ => none, bytes := fun _ => 0, blocks := fun _ => none }

/-- Memory with a live allocation made by Allocate(4, 8): the underlying
block of 8+16+4 = 28 bytes sits at outer 16, the inner pointer is 32 and the
header sits at 16.  Content bytes are their address mod 256. -/
def memC4 : Mem :=
  { headers := fun a => if a = 16 then some { outer := 16, size := 4 } else none,
    bytes := fun a => a % 256,
    blocks := fun a => if a = 16 then some 28 else none }

/-- C1: for every size > 0 and power-of-two alignment, when `doAllocation`
returns a non-null pointer (underlying `malloc` answered `outer`), that
pointer is an exact multiple of the alignment and is the smallest
alignment-multiple that is ≥ `outer + sizeof(BufferHeader)` (no smaller
aligned candidate `y` lies below it).  The bound `hov` says the wrapped
64-bit sum in the source did not overflow, which holds for any real `malloc`
result since the requested buffer fits in the address space. -/
theorem C1_allocate_alignment (size k outer y inner : Nat) (m : Mem)
    (hsz : 0 < size)
    (hov : outer + sizeofBufferHeader + 2 ^ k - 1 < ptrSpace)
    (hres : (doAllocation size (2 ^ k) (some outer) m).1 = some inner)
    (hy : y % 2 ^ k = 0) (hyge : outer + sizeofBufferHeader ≤ y) :
    inner % 2 ^ k = 0 ∧ outer + sizeofBufferHeader ≤ inner ∧ inner ≤ y := by
  have ha : 0 < 2 ^ k := Nat.pos_pow_of_pos _ (by norm_num)
  have hinner : inner = innerAddr outer (2 ^ k) := by
    rw [doAllocation_some _ _ _ _ (by omega)] at hres
    exact (Option.some.inj hres).symm
  rw [hinner, innerAddr_eq _ _ hov]
  exact ⟨roundUp_mod _ _, le_roundUp _ _ ha,
    roundUp_min _ _ y ha (Nat.dvd_of_mod_eq_zero hy) hyge⟩

theorem C1_allocate_alignment_witness :
    ((0 : Nat) < 1 ∧ 40 + sizeofBufferHeader + 2 ^ 16 - 1 < ptrSpace ∧
     (doAllocation 1 (2 ^ 16) (some 40) memEmpty).1 = some 65536 ∧
     65536 % 2 ^ 16 = 0 ∧ 40 + sizeofBufferHeader ≤ 65536) ∧
    (65536 % 2 ^ 16 = 0 ∧ 40 + sizeofBufferHeader ≤ 65536 ∧ 65536 ≤ 65536) :=
  ⟨⟨by decide, by decide, by decide, by decide, by decide⟩,
   C1_allocate_alignment 1 16 40 65536 65536 memEmpty (by decide) (by decide)
     (by decide) (by decide) (by decide)⟩

/-- C2: the outer buffer of `alignment + sizeof(BufferHeader) + size` bytes is
always sufficient: the inner address satisfies
`outer + sizeof(BufferHeader) ≤ inner` (so the header just before `inner` is
inside the buffer) and `inner + size ≤ outer + alignment +
sizeof(BufferHeader) + size` (so the caller-visible bytes are inside too).
`hfit` says the allocated buffer fits in the address space. -/
theorem C2_outer_buffer_sufficient (size k outer : Nat) (m : Mem)
    (hsz : 0 < size)
    (hfit : outer + 2 ^ k + sizeofBufferHeader + size ≤ ptrSpace) :
    (doAllocation size (2 ^ k) (some outer) m).1 =
      some (innerAddr outer (2 ^ k)) ∧
    outer + sizeofBufferHeader ≤ innerAddr outer (2 ^ k) ∧
    innerAddr outer (2 ^ k) + size ≤
      outer + 2 ^ k + sizeofBufferHeader + size := by
  have ha : 0 < 2 ^ k := Nat.pos_pow_of_pos _ (by norm_num)
  have e1 : sizeofBufferHeader = 16 := rfl
  have e2 : ptrSpace = 2 ^ 64 := rfl
  have hov : outer + sizeofBufferHeader + 2 ^ k - 1 < ptrSpace := by omega
  refine ⟨?_, ?_, ?_⟩
  · rw [doAllocation_some _ _ _ _ (by omega)]
  · rw [innerAddr_eq _ _ hov]
    exact le_roundUp _ _ ha
  · rw [innerAddr_eq _ _ hov]
    have h1 := roundUp_le (outer + sizeofBufferHeader) (2 ^ k)
    set t := roundUp (outer + sizeofBufferHeader) (2 ^ k) with htdef
    omega

theorem C2_outer_buffer_sufficient_witness :
    ((0 : Nat) < 3 ∧ 20 + 2 ^ 12 + sizeofBufferHeader + 3 ≤ ptrSpace) ∧
    ((doAllocation 3 (2 ^ 12) (some 20) memEmpty).1 =
       some (innerAddr 20 (2 ^ 12)) ∧
     20 + sizeofBufferHeader ≤ innerAddr 20 (2 ^ 12) ∧
     innerAddr 20 (2 ^ 12) + 3 ≤ 20 + 2 ^ 12 + sizeofBufferHeader + 3) :=
  ⟨⟨by decide, by decide⟩,
   C2_outer_buffer_sufficient 3 12 20 memEmpty (by decide) (by decide)⟩

/-- C8: Allocate with size 0 and a valid (nonzero power-of-two) alignment
returns null, leaves memory untouched, and makes no underlying call (the
trace is empty). -/
theorem C8_zero_size_returns_null (alignment : Nat) (u : Option Nat) (m : Mem)
    (ha : alignment ≠ 0 ∧ alignment &&& (alignment - 1) = 0) :
    doAllocation 0 alignment u m = (none, m, []) := by
  simp [doAllocation]

theorem C8_zero_size_returns_null_witness :
    ((16 : Nat) ≠ 0 ∧ (16 : Nat) &&& (16 - 1) = 0) ∧
    doAllocation 0 16 (some 5) memEmpty = (none, memEmpty, []) :=
  ⟨⟨by decide, by decide⟩,
   C8_zero_size_returns_null 16 (some 5) memEmpty ⟨by decide, by decide⟩⟩

theorem doReallocation_result_header_size
    (p S' alignment q : Nat) (uresp : Option Nat) (m : Mem) (hS' : S' ≠ 0)
    (hq : (doReallocation (some p) S' alignment uresp m).1 = some q) :
    (readHeader (doReallocation (some p) S' alignment uresp m).2.2.1
      (q - sizeofBufferHeader)).size = S' := by
  by_cases hfa : alignment ≤ minReallocAlignment
  · cases uresp with
    | none => simp [doReallocation, hS', hfa, fastRealloc] at hq
    | some newOuter =>
      simp [doReallocation, hS', hfa, fastRealloc] at hq ⊢
      subst hq
      simp [readHeader, writeHeader]
  · cases uresp with
    | none =>
      simp [doReallocation, hS', hfa, slowRealloc, doAllocation] at hq
    | some fresh =>
      simp [doReallocation, hS', hfa, slowRealloc, doAllocation] at hq ⊢
      subst hq
      simp [readHeader, writeHeader, copyBytes, mallocEffect]

/-- C6: two scenarios.  An allocation created with requested size `S`
requests `alignment + sizeof(BufferHeader) + S` bytes from the underlying
allocator (visible in the trace), yet both `doFree` and `doReallocation`
(for any new size, including 0, and any underlying response) report exactly
`S` — which differs from the underlying reservation.  And for any live
allocation last resized by a successful `doReallocation` to requested size
`S'` — on either the fast or the slow path, whichever the alignment
selected — the resize rewrote the header with `S'`, so a subsequent
`doFree` or `doReallocation` on the returned pointer reports exactly `S'`
as well (while the underlying reservation was again
`alignment + sizeof(BufferHeader) + S'`). -/
theorem C6_exact_size_reporting
    (S alignment outer newSize S' alignment2 p q anySize : Nat)
    (u uresp u' : Option Nat) (m m2 : Mem)
    (hS : 0 < S) (hS' : 0 < S')
    (hq : (doReallocation (some p) S' alignment2 uresp m2).1 = some q) :
    (doAllocation S alignment (some outer) m).2.2 =
      [UCall.malloc (alignment + sizeofBufferHeader + S)] ∧
    (doFree (innerAddr outer alignment)
      (doAllocation S alignment (some outer) m).2.1).1 = S ∧
    (doReallocation (some (innerAddr outer alignment)) newSize alignment u
      (doAllocation S alignment (some outer) m).2.1).2.1 = S ∧
    S ≠ alignment + sizeofBufferHeader + S ∧
    (doFree q (doReallocation (some p) S' alignment2 uresp m2).2.2.1).1 = S' ∧
    (doReallocation (some q) anySize alignment2 u'
      (doReallocation (some p) S' alignment2 uresp m2).2.2.1).2.1 = S' := by
  have e1 : sizeofBufferHeader = 16 := rfl
  have hread : readHeader (doAllocation S alignment (some outer) m).2.1
      (innerAddr outer alignment - sizeofBufferHeader) =
      { outer := outer, size := S } := by
    rw [doAllocation_some _ _ _ _ (by omega)]
    simp [readHeader, writeHeader]
  have hresize := doReallocation_result_header_size p S' alignment2 q uresp m2
    (by omega) hq
  refine ⟨?_, ?_, ?_, by omega, ?_, ?_⟩
  · rw [doAllocation_some _ _ _ _ (by omega)]
  · show (readHeader _ _).size = S
    rw [hread]
  · rw [doReallocation_reports, hread]
  · show (readHeader _ _).size = S'
    exact hresize
  · rw [doReallocation_reports]
    exact hresize

theorem C6_exact_size_reporting_witness :
    ((0 : Nat) < 7 ∧ (0 : Nat) < 5 ∧
     (doReallocation (some 32) 5 8 (some 48) memC4).1 = some 64) ∧
    ((doAllocation 7 4 (some 12) memEmpty).2.2 =
       [UCall.malloc (4 + sizeofBufferHeader + 7)] ∧
     (doFree (innerAddr 12 4)
       (doAllocation 7 4 (some 12) memEmpty).2.1).1 = 7 ∧
     (doReallocation (some (innerAddr 12 4)) 3 4 none
       (doAllocation 7 4 (some 12) memEmpty).2.1).2.1 = 7 ∧
     7 ≠ 4 + sizeofBufferHeader + 7 ∧
     (doFree 64 (doReallocation (some 32) 5 8 (some 48) memC4).2.2.1).1 = 5 ∧
     (doReallocation (some 64) 9 8 none
       (doReallocation (some 32) 5 8 (some 48) memC4).2.2.1).2.1 = 5) :=
  ⟨⟨by decide, by decide, by decide⟩,
   C6_exact_size_reporting 7 4 12 3 5 8 32 64 9 none (some 48) none memEmpty
     memC4 (by decide) (by decide) (by decide)⟩

/-- C7: `doReallocation` with a null original pointer returns exactly what
`doAllocation` returns (same result, memory and trace) with originalSize 0;
with a live pointer and new size 0 it behaves as `doFree` (reporting the
stored size) and returns null; and the null-pointer check comes first: with
a null pointer AND size 0 it takes the Allocate branch, returning null with
no underlying call at all (in particular no free). -/
theorem C7_null_then_zero (p size alignment : Nat) (u : Option Nat) (m : Mem) :
    doReallocation none size alignment u m =
      ((doAllocation size alignment u m).1, 0,
       (doAllocation size alignment u m).2.1,
       (doAllocation size alignment u m).2.2) ∧
    doReallocation (some p) 0 alignment u m =
      (none, (doFree p m).1, (doFree p m).2.1, (doFree p m).2.2) ∧
    doReallocation none 0 alignment u m = (none, 0, m, []) :=
  ⟨rfl, rfl, rfl⟩

/-- C10: `doReallocation` stores through `originalSize` on every path: 0 when
the original pointer is null (the behave-as-Allocate case, including its
exhaustion path), and the `size` field of the original allocation's stored
header on every path with a non-null pointer — the free path, both success
paths, and both null-returning exhaustion paths. -/
theorem C10_originalSize_every_path (pOriginal : Option Nat)
    (size alignment : Nat) (u : Option Nat) (m : Mem) :
    (doReallocation pOriginal size alignment u m).2.1 =
      (match pOriginal with
       | none => 0
       | some p => (readHeader m (p - sizeofBufferHeader)).size) := by
  match pOriginal with
  | none => rfl
  | some p => exact doReallocation_reports p size alignment u m

/-- A memory holding one live allocation made by Allocate(100, 4096): the
underlying block of 4096+16+100 = 4212 bytes sits at outer 8192, the inner
pointer is 12288 (allocation at alignment 4096 puts the inner address at the
next 4096-multiple past 8192+16), and the header sits at 12288 - 16 = 12272.
Content bytes are their address mod 256 so relocation is observable. -/
def memC3 : Mem :=
  { headers := fun a =>
      if a = 12272 then some { outer := 8192, size := 100 } else none,
    bytes := fun a => a % 256,
    blocks := fun a => if a = 8192 then some 4212 else none }

/-- C3 (failing input, `DebugAllocator::fnReallocation` in `01-device`):
reallocating the live allocation of `memC3` to 200 bytes at alignment 4096,
the speculative `realloc` succeeds but relocates the outer buffer from 8192
to 24 — a shift of 24 mod 4096, breaking alignment — and the fallback fresh
allocation then hits exhaustion.  `fnReallocation01` returns null, yet the
original underlying block at 8192 (live in `memC3`) has already been
consumed by the `realloc`: the original allocation is not left valid, which
is exactly the hazard `AllocationCallbacks.cpp`'s comment rules out. -/
theorem C3_fnReallocation01_fail_destroys_original :
    (fnReallocation01 (some 12288) 200 4096 (some 24) none memC3).1 = none ∧
    (fnReallocation01 (some 12288) 200 4096 (some 24) none memC3).2.1.blocks
      8192 = none ∧
    memC3.blocks 8192 = some 4212 ∧
    (fnReallocation01 (some 12288) 200 4096 (some 24) none memC3).2.2 =
      [UCall.realloc 8192 4312, UCall.malloc 4312] :=
  ⟨by decide, by decide, by decide, by decide⟩

/-- Contrast for C3: `AllocationCallbacksBase::doReallocation` does satisfy
the claimed error semantics — whenever the single underlying allocation call
of the run reports exhaustion (the fast path's `realloc` or the slow path's
fresh `malloc` returning null), it returns null, leaves memory (header,
contents, and the original live block) completely unchanged, and still
reports the stored original size. -/
theorem doReallocation_exhaustion_preserves (p size alignment : Nat) (m : Mem)
    (hsz : size ≠ 0) :
    (doReallocation (some p) size alignment none m).1 = none ∧
    (doReallocation (some p) size alignment none m).2.2.1 = m ∧
    (doReallocation (some p) size alignment none m).2.1 =
      (readHeader m (p - sizeofBufferHeader)).size := by
  by_cases hfa : alignment ≤ minReallocAlignment
  · simp [doReallocation, hsz, hfa, fastRealloc]
  · simp [doReallocation, hsz, hfa, slowRealloc, doAllocation]

/-- C5 (failing input, `DebugAllocator::fnReallocation` in `01-device`): at
alignment 4096, far above the static fast-path bound `minReallocAlignment`,
`fnReallocation01` still invokes the underlying resize primitive `realloc`
on the original buffer (here it succeeds in place up to a 4096-multiple
shift, so the call's whole trace is that one `realloc`). -/
theorem C5_fnReallocation01_invokes_realloc :
    minReallocAlignment < 4096 ∧
    (fnReallocation01 (some 12288) 200 4096 (some 16384) none memC3).2.2 =
      [UCall.realloc 8192 4312] ∧
    (fnReallocation01 (some 12288) 200 4096 (some 16384) none memC3).1 =
      some 20480 :=
  ⟨by decide, by decide, by decide⟩

/-- Contrast for C5: the slow path of `AllocationCallbacksBase::doReallocation`
(alignment above `minReallocAlignment`) performs exactly a fresh `malloc` of
`alignment + sizeof(BufferHeader) + size` bytes followed by a free of the
original outer buffer — never a `realloc` — and between them copies
`min(size, oldSize)` bytes from the old inner pointer to the new one. -/
theorem doReallocation_slow_path_steps
    (p size alignment oldOuter oldS freshOuter i : Nat) (m : Mem)
    (hsz : size ≠ 0) (hfa : ¬alignment ≤ minReallocAlignment)
    (hhdr : m.headers (p - sizeofBufferHeader) =
      some { outer := oldOuter, size := oldS })
    (hi : i < min size oldS) :
    (doReallocation (some p) size alignment (some freshOuter) m).2.2.2 =
      [UCall.malloc (alignment + sizeofBufferHeader + size),
       UCall.free oldOuter] ∧
    (doReallocation (some p) size alignment (some freshOuter) m).1 =
      some (innerAddr freshOuter alignment) ∧
    (doReallocation (some p) size alignment (some freshOuter) m).2.2.1.bytes
      (innerAddr freshOuter alignment + i) = m.bytes (p + i) := by
  have hcond : innerAddr freshOuter alignment ≤ innerAddr freshOuter alignment + i ∧
      innerAddr freshOuter alignment + i <
        innerAddr freshOuter alignment + min size oldS := by
    omega
  simp [doReallocation, hsz, hfa, slowRealloc, doAllocation, readHeader, hhdr,
    copyBytes, writeHeader, mallocEffect, hcond]

theorem innerAddr_of_divisible (outer k : Nat) (hk : k ≤ 4)
    (hdvd : 2 ^ k ∣ outer)
    (hov : outer + sizeofBufferHeader + 2 ^ k - 1 < ptrSpace) :
    innerAddr outer (2 ^ k) = outer + sizeofBufferHeader := by
  have ha : 0 < 2 ^ k := Nat.pos_pow_of_pos _ (by norm_num)
  rw [innerAddr_eq _ _ hov]
  apply roundUp_eq_self _ _ ha
  have h16 : (2 : Nat) ^ k ∣ sizeofBufferHeader := by
    have h := pow_dvd_pow 2 hk
    rw [show sizeofBufferHeader = 2 ^ 4 from rfl]
    exact h
  exact dvd_add hdvd h16

/-- C9: on the fast path (alignment 2^k ≤ alignof(double) = 8), given the
platform contract that the underlying `malloc` and `realloc` return
8-aligned addresses (`hout8`, `hnew8`) and the Allocate invariant for the
live original pointer (`hinner`, with the same alignment per the caller
contract), both post-resize `ASSERT`s of `doReallocation` hold: the new
outer address is a multiple of the requested alignment, and
`newInner - inner = newOuter - outer` (stated additively over ℕ as
`newInner + outer = inner + newOuter`), so the recomputed inner pointer
lands exactly on the content `realloc` preserved; and the call returns that
recomputed inner pointer. -/
theorem C9_fast_path_assertions (k size oldS inner outer newOuter : Nat)
    (m : Mem) (hk : k ≤ 3) (hsz : size ≠ 0)
    (hhdr : m.headers (inner - sizeofBufferHeader) =
      some { outer := outer, size := oldS })
    (hinner : inner = innerAddr outer (2 ^ k))
    (hout8 : outer % 8 = 0) (hnew8 : newOuter % 8 = 0)
    (hovO : outer + sizeofBufferHeader + 2 ^ k - 1 < ptrSpace)
    (hovN : newOuter + sizeofBufferHeader + 2 ^ k - 1 < ptrSpace) :
    newOuter % 2 ^ k = 0 ∧
    innerAddr newOuter (2 ^ k) + outer = inner + newOuter ∧
    (doReallocation (some inner) size (2 ^ k) (some newOuter) m).1 =
      some (innerAddr newOuter (2 ^ k)) := by
  have hd8 : (2 : Nat) ^ k ∣ 8 := by
    have h := pow_dvd_pow 2 hk
    rw [show (8 : Nat) = 2 ^ 3 from rfl]
    exact h
  have hdo : (2 : Nat) ^ k ∣ outer := hd8.trans (Nat.dvd_of_mod_eq_zero hout8)
  have hdn : (2 : Nat) ^ k ∣ newOuter :=
    hd8.trans (Nat.dvd_of_mod_eq_zero hnew8)
  have hio : innerAddr outer (2 ^ k) = outer + sizeofBufferHeader :=
    innerAddr_of_divisible _ _ (by omega) hdo hovO
  have hin : innerAddr newOuter (2 ^ k) = newOuter + sizeofBufferHeader :=
    innerAddr_of_divisible _ _ (by omega) hdn hovN
  have hle : 2 ^ k ≤ minReallocAlignment := by
    have h : (2 : Nat) ^ k ≤ 2 ^ 3 := Nat.pow_le_pow_right (by norm_num) hk
    rw [show minReallocAlignment = 2 ^ 3 from rfl]
    exact h
  refine ⟨Nat.mod_eq_zero_of_dvd hdn, ?_, ?_⟩
  · rw [hin, hinner, hio]
    omega
  · simp [doReallocation, hsz, hle, fastRealloc]

theorem C9_fast_path_assertions_witness :
    ((3 : Nat) ≤ 3 ∧ (2 : Nat) ≠ 0 ∧
     memC4.headers (32 - sizeofBufferHeader) =
       some { outer := 16, size := 4 } ∧
     32 = innerAddr 16 (2 ^ 3) ∧ (16 : Nat) % 8 = 0 ∧ (48 : Nat) % 8 = 0 ∧
     16 + sizeofBufferHeader + 2 ^ 3 - 1 < ptrSpace ∧
     48 + sizeofBufferHeader + 2 ^ 3 - 1 < ptrSpace) ∧
    (48 % 2 ^ 3 = 0 ∧
     innerAddr 48 (2 ^ 3) + 16 = 32 + 48 ∧
     (doReallocation (some 32) 2 (2 ^ 3) (some 48) memC4).1 =
       some (innerAddr 48 (2 ^ 3))) :=
  ⟨⟨by decide, by decide, by decide, by decide, by decide, by decide,
    by decide, by decide⟩,
   C9_fast_path_assertions 3 2 4 32 16 48 memC4 (by decide) (by decide)
     (by decide) (by decide) (by decide) (by decide) (by decide) (by decide)⟩

/-- C4: observable equivalence of the two reallocation strategies.  For a
live allocation (header `{outer, oldS}` behind `inner`, Allocate invariant
`hinner`, underlying block of `2^k + sizeof(BufferHeader) + oldS` bytes at
`outer`) and a new size > 0 at the same power-of-two alignment `2^k`, with
the platform contract that `malloc`/`realloc` results are 8-aligned and the
alignment small enough (`k ≤ 3`) that the fast path is even permitted:
running the fast arm (`realloc` answers `newOuter`) and the slow arm (fresh
`malloc` answers `freshOuter`) both succeed, both returned pointers are
exact multiples of the alignment, both preserve the first
`min(size, oldS)` content bytes (byte `i` of either result equals byte `i`
of the original inner buffer), and the reported original size is `oldS`
regardless of the arm; `doReallocation` itself executes the fast arm here. -/
theorem C4_fast_slow_equivalence
    (k size oldS inner outer newOuter freshOuter i : Nat) (u : Option Nat)
    (m : Mem) (hk : k ≤ 3) (hsz : size ≠ 0)
    (hhdr : m.headers (inner - sizeofBufferHeader) =
      some { outer := outer, size := oldS })
    (hinner : inner = innerAddr outer (2 ^ k))
    (hblk : m.blocks outer = some (2 ^ k + sizeofBufferHeader + oldS))
    (hout8 : outer % 8 = 0) (hnew8 : newOuter % 8 = 0)
    (hovO : outer + sizeofBufferHeader + 2 ^ k - 1 < ptrSpace)
    (hovN : newOuter + sizeofBufferHeader + 2 ^ k - 1 < ptrSpace)
    (hovF : freshOuter + sizeofBufferHeader + 2 ^ k - 1 < ptrSpace)
    (hi : i < min size oldS) :
    (fastRealloc inner { outer := outer, size := oldS } size (2 ^ k)
      (some newOuter) m).1 = some (innerAddr newOuter (2 ^ k)) ∧
    (slowRealloc inner { outer := outer, size := oldS } size (2 ^ k)
      (some freshOuter) m).1 = some (innerAddr freshOuter (2 ^ k)) ∧
    innerAddr newOuter (2 ^ k) % 2 ^ k = 0 ∧
    innerAddr freshOuter (2 ^ k) % 2 ^ k = 0 ∧
    (fastRealloc inner { outer := outer, size := oldS } size (2 ^ k)
      (some newOuter) m).2.1.bytes (innerAddr newOuter (2 ^ k) + i) =
      m.bytes (inner + i) ∧
    (slowRealloc inner { outer := outer, size := oldS } size (2 ^ k)
      (some freshOuter) m).2.1.bytes (innerAddr freshOuter (2 ^ k) + i) =
      m.bytes (inner + i) ∧
    (doReallocation (some inner) size (2 ^ k) u m).2.1 = oldS ∧
    (doReallocation (some inner) size (2 ^ k) (some newOuter) m).1 =
      (fastRealloc inner { outer := outer, size := oldS } size (2 ^ k)
        (some newOuter) m).1 := by
  have e1 : sizeofBufferHeader = 16 := rfl
  have hd8 : (2 : Nat) ^ k ∣ 8 := by
    have h := pow_dvd_pow 2 hk
    rw [show (8 : Nat) = 2 ^ 3 from rfl]
    exact h
  have hdo : (2 : Nat) ^ k ∣ outer := hd8.trans (Nat.dvd_of_mod_eq_zero hout8)
  have hdn : (2 : Nat) ^ k ∣ newOuter :=
    hd8.trans (Nat.dvd_of_mod_eq_zero hnew8)
  have hio : innerAddr outer (2 ^ k) = outer + sizeofBufferHeader :=
    innerAddr_of_divisible _ _ (by omega) hdo hovO
  have hin : innerAddr newOuter (2 ^ k) = newOuter + sizeofBufferHeader :=
    innerAddr_of_divisible _ _ (by omega) hdn hovN
  have hle : 2 ^ k ≤ minReallocAlignment := by
    have h : (2 : Nat) ^ k ≤ 2 ^ 3 := Nat.pow_le_pow_right (by norm_num) hk
    rw [show minReallocAlignment = 2 ^ 3 from rfl]
    exact h
  refine ⟨?_, ?_, ?_, ?_, ?_, ?_, ?_, ?_⟩
  · simp [fastRealloc]
  · simp [slowRealloc, doAllocation, hsz]
  · rw [innerAddr_eq _ _ hovN]
    exact roundUp_mod _ _
  · rw [innerAddr_eq _ _ hovF]
    exact roundUp_mod _ _
  · simp only [fastRealloc, writeHeader, reallocEffect, hblk, Option.getD_some]
    rw [hin]
    have hcond : newOuter ≤ newOuter + sizeofBufferHeader + i ∧
        newOuter + sizeofBufferHeader + i <
          newOuter + min (2 ^ k + sizeofBufferHeader + oldS)
            (2 ^ k + sizeofBufferHeader + size) := by
      omega
    rw [if_pos hcond]
    have hidx : outer + (newOuter + sizeofBufferHeader + i - newOuter) =
        inner + i := by
      have hinner16 : inner = outer + sizeofBufferHeader := by
        rw [hinner, hio]
      omega
    rw [hidx]
  · have hcond : innerAddr freshOuter (2 ^ k) ≤
        innerAddr freshOuter (2 ^ k) + i ∧
        innerAddr freshOuter (2 ^ k) + i <
          innerAddr freshOuter (2 ^ k) + min size oldS := by
      omega
    simp [slowRealloc, doAllocation, hsz, copyBytes, writeHeader,
      mallocEffect, hcond]
  · rw [doReallocation_reports]
    simp [readHeader, hhdr]
  · simp [doReallocation, hsz, hle, readHeader, hhdr]

theorem C4_fast_slow_equivalence_witness :
    ((3 : Nat) ≤ 3 ∧ (2 : Nat) ≠ 0 ∧
     memC4.headers (32 - sizeofBufferHeader) =
       some { outer := 16, size := 4 } ∧
     32 = innerAddr 16 (2 ^ 3) ∧
     memC4.blocks 16 = some (2 ^ 3 + sizeofBufferHeader + 4) ∧
     (16 : Nat) % 8 = 0 ∧ (48 : Nat) % 8 = 0 ∧
     16 + sizeofBufferHeader + 2 ^ 3 - 1 < ptrSpace ∧
     48 + sizeofBufferHeader + 2 ^ 3 - 1 < ptrSpace ∧
     96 + sizeofBufferHeader + 2 ^ 3 - 1 < ptrSpace ∧
     (0 : Nat) < min 2 4) ∧
    ((fastRealloc 32 { outer := 16, size := 4 } 2 (2 ^ 3) (some 48)
        memC4).1 = some (innerAddr 48 (2 ^ 3)) ∧
     (slowRealloc 32 { outer := 16, size := 4 } 2 (2 ^ 3) (some 96)
        memC4).1 = some (innerAddr 96 (2 ^ 3)) ∧
     innerAddr 48 (2 ^ 3) % 2 ^ 3 = 0 ∧
     innerAddr 96 (2 ^ 3) % 2 ^ 3 = 0 ∧
     (fastRealloc 32 { outer := 16, size := 4 } 2 (2 ^ 3) (some 48)
        memC4).2.1.bytes (innerAddr 48 (2 ^ 3) + 0) = memC4.bytes (32 + 0) ∧
     (slowRealloc 32 { outer := 16, size := 4 } 2 (2 ^ 3) (some 96)
        memC4).2.1.bytes (innerAddr 96 (2 ^ 3) + 0) = memC4.bytes (32 + 0) ∧
     (doReallocation (some 32) 2 (2 ^ 3) (some 48) memC4).2.1 = 4 ∧
     (doReallocation (some 32) 2 (2 ^ 3) (some 48) memC4).1 =
       (fastRealloc 32 { outer := 16, size := 4 } 2 (2 ^ 3) (some 48)
         memC4).1) :=
  ⟨⟨by decide, by decide, by decide, by decide, by decide, by decide,
    by decide, by decide, by decide, by decide, by decide⟩,
   C4_fast_slow_equivalence 3 2 4 32 16 48 96 0 (some 48) memC4 (by decide)
     (by decide) (by decide) (by decide) (by decide) (by decide) (by decide)
     (by decide) (by decide) (by decide) (by decide)⟩
